import Mathlib

set_option maxRecDepth 100000

/-!
Verification of the inventory forecast-to-decision engine: a shallow embedding
of calculate_coverage_days, calculate_reorder_point, calculate_financial_metrics,
generate_inventory_insights (inventory_management.py), generate_forecast and
process_forecast_request (forecasting_agent.py), and find_items_to_reorder
(reorder_priority_analysis.py). Dates are modelled as integer day numbers and
float values as rationals; dictionary results become structures, raised
exceptions become Option none, and the success=False dictionaries become an
explicit error constructor.
-/

/-- One forecast row: a calendar date (an integer day number, standing for the
ds column) and the predicted demand for that day (the yhat column). -/
structure FPoint where
  ds : Int
  yhat : Rat
  deriving DecidableEq

/-- Minimum of a list, as the pandas Series.min reduction; none on an empty
series (pandas NaN). -/
def listMin? {α : Type} [LinearOrder α] : List α → Option α
  | [] => none
  | x :: xs =>
    some (match listMin? xs with
          | none => x
          | some m => min x m)

/-- Maximum of a list, as the pandas Series.max reduction; none on an empty
series. -/
def listMax? {α : Type} [LinearOrder α] : List α → Option α
  | [] => none
  | x :: xs =>
    some (match listMax? xs with
          | none => x
          | some m => max x m)

/-- Round half to even, as the Python builtin round applied to a real value. -/
def pyRound (x : Rat) : Int :=
  let fl := Rat.floor x
  let r := x - (fl : Rat)
  if r < 1 / 2 then fl
  else if 1 / 2 < r then fl + 1
  else if fl % 2 = 0 then fl else fl + 1

/-- Round to one decimal digit, half to even, as the Python round(x, 1). -/
def pyRound1 (x : Rat) : Rat := (pyRound (x * 10) : Rat) / 10

/-- Round to two decimal digits, half to even, as the Python round(x, 2). -/
def pyRound2 (x : Rat) : Rat := (pyRound (x * 100) : Rat) / 100

/-- Pair each forecast row with the cumulative demand through it: the
cum_demand column that calculate_coverage_days builds with Series.cumsum,
kept next to its row. -/
def withCum : List FPoint → Rat → List (FPoint × Rat)
  | [], _ => []
  | p :: rest, acc => (p, acc + p.yhat) :: withCum rest (acc + p.yhat)

/-- Sum of the demands of the first k forecast rows. -/
def sumTake (f : List FPoint) (k : Nat) : Rat := ((f.take k).map FPoint.yhat).sum

/-- Dates of the rows whose cumulative demand has reached the stock level: the
ds column selected by the boolean mask cum_demand >= current_inventory. -/
def qualDates (f : List FPoint) (inv : Rat) : List Int :=
  ((withCum f 0).filter (fun pc => decide (inv ≤ pc.2))).map (fun pc => pc.1.ds)

/-- Coverage status values returned by calculate_coverage_days. -/
inductive CovStatus where
  | critical
  | low
  | adequate
  | sufficient
  deriving DecidableEq

/-- Coverage-days value: either a concrete day count, or the textual sentinel
(the string made of a greater-than sign and the horizon length) that the
source returns when stock outlasts the whole forecast. -/
inductive CoverageDays where
  | days (d : Int)
  | beyond (n : Nat)
  deriving DecidableEq

/-- Result dictionary of calculate_coverage_days (the message field, pure
display text derived from the others, is omitted). -/
structure CoverageInfo where
  cover_until : Option Int
  coverage_days : CoverageDays
  status : CovStatus
  remaining_inventory : Rat
  deriving DecidableEq

/-- Status from a concrete coverage-day count, as the chained conditional in
calculate_coverage_days. -/
def statusOf (d : Int) : CovStatus :=
  if d ≤ 7 then .critical else if d ≤ 14 then .low else .adequate

/-- Earliest date of the forecast table, the Series.min of the ds column. -/
def dsMin (f : List FPoint) : Int := (listMin? (f.map FPoint.ds)).getD 0

/-- InventoryManager.calculate_coverage_days: build the cumulative-demand
column, take the earliest date whose cumulative demand reaches the stock, and
return the exhaustion record (coverage days are the day difference to the
earliest forecast date) or, when no date qualifies, the sufficient record. An
empty forecast reaches the iloc access on the last element of an empty column
and raises, modelled as none. -/
def calculate_coverage_days (f : List FPoint) (inv : Rat) : Option CoverageInfo :=
  match listMin? (qualDates f inv) with
  | none =>
    ((withCum f 0).map (fun pc => pc.2)).getLast?.map
      (fun total =>
        { cover_until := none
          coverage_days := .beyond f.length
          status := .sufficient
          remaining_inventory := inv - total })
  | some cu =>
    some
      { cover_until := some cu
        coverage_days := .days (cu - dsMin f)
        status := statusOf (cu - dsMin f)
        remaining_inventory := 0 }

/-- Result dictionary of calculate_reorder_point, with the rounded values the
source returns. -/
structure RopInfo where
  reorder_point : Int
  lead_time_demand : Int
  safety_stock : Int
  safety_factor : Rat
  deriving DecidableEq

/-- Lead-time demand of calculate_reorder_point: the sum of the first
lead_time rows, or, when the forecast is shorter than the lead time, the mean
daily demand times the lead time. The mean of an empty column is NaN and the
later round call raises, modelled as none. -/
def leadTimeDemand (f : List FPoint) (lead_time : Nat) : Option Rat :=
  if f.length < lead_time then
    if f.length = 0 then none
    else some ((f.map FPoint.yhat).sum / (f.length : Rat) * (lead_time : Rat))
  else some (((f.take lead_time).map FPoint.yhat).sum)

/-- InventoryManager.calculate_reorder_point: lead-time demand, safety stock
at safety_factor minus one, reorder point at safety_factor, each rounded for
the returned dictionary. The source default for safety_factor is 1.25. -/
def calculate_reorder_point (f : List FPoint) (lead_time : Nat) (safety_factor : Rat) :
    Option RopInfo :=
  (leadTimeDemand f lead_time).map
    (fun ltd =>
      { reorder_point := pyRound (ltd * safety_factor)
        lead_time_demand := pyRound ltd
        safety_stock := pyRound (ltd * (safety_factor - 1))
        safety_factor := safety_factor })

/-- Result dictionary of calculate_financial_metrics. -/
structure FinancialInfo where
  expected_revenue : Rat
  expected_sales : Int
  total_demand : Int
  avg_inventory : Rat
  holding_cost : Rat
  gross_profit : Rat
  profit_margin : Rat
  deriving DecidableEq

/-- Total forecast demand: the sum of the yhat column. -/
def totalDemand (f : List FPoint) : Rat := (f.map FPoint.yhat).sum

/-- Expected unit sales: stock capped by total forecast demand. -/
def expectedSales (f : List FPoint) (inv : Int) : Rat := min (inv : Rat) (totalDemand f)

/-- Expected revenue before rounding. -/
def expectedRevenue (f : List FPoint) (inv : Int) (price : Rat) : Rat :=
  expectedSales f inv * price

/-- Projected on-hand inventory per forecast day: stock minus cumulative
demand, clipped at zero. -/
def projectedInventory (f : List FPoint) (inv : Int) : List Rat :=
  (withCum f 0).map (fun pc => max ((inv : Rat) - pc.2) 0)

/-- Mean projected inventory over the horizon. The mean of an empty column is
NaN in the source; every use below is guarded by a nonempty forecast. -/
def avgInventory (f : List FPoint) (inv : Int) : Rat :=
  (projectedInventory f inv).sum / (f.length : Rat)

/-- Holding cost before rounding: mean inventory times the holding rate times
the horizon length. -/
def holdingCost (f : List FPoint) (inv : Int) (rate : Rat) : Rat :=
  avgInventory f inv * rate * (f.length : Rat)

/-- Gross profit before rounding. -/
def grossProfit (f : List FPoint) (inv : Int) (price rate : Rat) : Rat :=
  expectedRevenue f inv price - holdingCost f inv rate

/-- InventoryManager.calculate_financial_metrics. The profit margin divides
gross profit by expected revenue only under the guard that expected revenue is
positive, and is 0 otherwise. An empty forecast propagates NaN into the
rounded fields, modelled as none. -/
def calculate_financial_metrics (f : List FPoint) (inv : Int) (price rate : Rat) :
    Option FinancialInfo :=
  if f.length = 0 then none
  else
    some
      { expected_revenue := pyRound2 (expectedRevenue f inv price)
        expected_sales := pyRound (expectedSales f inv)
        total_demand := pyRound (totalDemand f)
        avg_inventory := pyRound1 (avgInventory f inv)
        holding_cost := pyRound2 (holdingCost f inv rate)
        gross_profit := pyRound2 (grossProfit f inv price rate)
        profit_margin :=
          pyRound1 (if 0 < expectedRevenue f inv price then
                      grossProfit f inv price rate / expectedRevenue f inv price * 100
                    else 0) }

/-- Row of the item_dim lookup used by generate_inventory_insights. -/
structure ItemDetails where
  price : Rat
  lead_time : Nat
  holding_cost : Rat
  deriving DecidableEq

/-- Recommendation messages, one tag per distinct string the composer can
append to the recommendations list. -/
inductive Advice where
  | urgentReorder
  | reorderSoon
  | belowReorderPoint
  | improveMargin
  deriving DecidableEq

/-- Error cases of the success=False dictionaries of
generate_inventory_insights: a failed stock lookup, a failed item_dim lookup,
or an exception caught by the surrounding try/except block. -/
inductive ErrReason where
  | noInventory
  | noDetails
  | exceptionCaught
  deriving DecidableEq

/-- Success payload of generate_inventory_insights (item id and description,
pure pass-through strings, are omitted). -/
structure Insight where
  current_inventory : Int
  coverage : CoverageInfo
  reorder : RopInfo
  financial : FinancialInfo
  recommendations : List Advice
  forecast_period_days : Nat
  deriving DecidableEq

/-- Return value of generate_inventory_insights: the success payload or a
success=False dictionary with an error reason. -/
inductive InsightResult where
  | ok (ins : Insight)
  | err (e : ErrReason)
  deriving DecidableEq

/-- Recommendation list in the fixed order the composer appends entries:
coverage urgency (critical, else low), reorder-point breach, margin concern. -/
def buildRecommendations (inv : Int) (cov : CoverageInfo) (rop : RopInfo)
    (fin : FinancialInfo) : List Advice :=
  (if cov.status = .critical then [Advice.urgentReorder]
   else if cov.status = .low then [Advice.reorderSoon] else [])
  ++ (if inv ≤ rop.reorder_point then [Advice.belowReorderPoint] else [])
  ++ (if fin.profit_margin < 10 then [Advice.improveMargin] else [])

/-- InventoryManager.generate_inventory_insights. The stock and item_dim
lookups are modelled as Option-valued inputs; a failed lookup yields the
corresponding success=False dictionary. The whole body runs inside a
catch-all try/except block, so an exception raised by any analyzer is caught
and becomes the success=False dictionary with the exception text — it is
never propagated to the caller. -/
def generate_inventory_insights (inventory : Option Int) (details : Option ItemDetails)
    (f : List FPoint) : InsightResult :=
  match inventory with
  | none => .err .noInventory
  | some inv =>
    match details with
    | none => .err .noDetails
    | some d =>
      match calculate_coverage_days f (inv : Rat),
            calculate_reorder_point f d.lead_time (5 / 4),
            calculate_financial_metrics f inv d.price d.holding_cost with
      | some cov, some rop, some fin =>
        .ok
          { current_inventory := inv
            coverage := cov
            reorder := rop
            financial := fin
            recommendations := buildRecommendations inv cov rop fin
            forecast_period_days := f.length }
      | _, _, _ => .err .exceptionCaught

/-- Composer as worded by the spec, for comparison with the source composer:
it does not catch analyzer errors but propagates them to its own caller, so
the whole call fails (outer none, a propagated exception) whenever an
analyzer fails. -/
def spec_compose_propagating (inventory : Option Int) (details : Option ItemDetails)
    (f : List FPoint) : Option InsightResult :=
  match inventory with
  | none => some (.err .noInventory)
  | some inv =>
    match details with
    | none => some (.err .noDetails)
    | some d =>
      match calculate_coverage_days f (inv : Rat),
            calculate_reorder_point f d.lead_time (5 / 4),
            calculate_financial_metrics f inv d.price d.holding_cost with
      | some cov, some rop, some fin =>
        some (.ok
          { current_inventory := inv
            coverage := cov
            reorder := rop
            financial := fin
            recommendations := buildRecommendations inv cov rop fin
            forecast_period_days := f.length })
      | _, _, _ => none

/-- Gap filling of ForecastingAgent.prepare_forecast_data: the grouped,
date-sorted sales rows are reindexed over every calendar day from the
earliest to the latest date, missing days getting zero sales. An empty query
result raises ValueError, modelled as none. -/
def fillGaps (rows : List (Int × Rat)) : Option (List (Int × Rat)) :=
  match listMin? (rows.map (fun r => r.1)), listMax? (rows.map (fun r => r.1)) with
  | some a, some b =>
    some ((List.range ((b - a).toNat + 1)).map
      (fun j : Nat => (a + (j : Int), (List.lookup (a + (j : Int)) rows).getD 0)))
  | _, _ => none

/-- ForecastingAgent.generate_forecast with the external Prophet model
abstracted as a per-date prediction function. Its make_future_dataframe call,
with the library default include_history set, returns the historical dates
followed by forecast_days new daily dates; model.predict scores every one of
those rows; the yhat column is then clipped at zero. The returned table
therefore contains one row per fitted historical day in addition to the
requested future rows. -/
def generate_forecast (predict : Int → Rat) (rows : List (Int × Rat)) (n : Nat) :
    Option (List FPoint) :=
  (fillGaps rows).map
    (fun hist =>
      let histDates := hist.map (fun r => r.1)
      let lastD := histDates.getLast?.getD 0
      (histDates ++ (List.range n).map (fun j : Nat => lastD + 1 + (j : Int))).map
        (fun d => { ds := d, yhat := max (predict d) 0 }))

/-- ForecastingAgent.process_forecast_request, reduced to its inventory data
flow: the full forecast table returned by generate_forecast — history rows
included and unsliced — is handed to the inventory analysis, whose insight
payload comes from generate_inventory_insights; a forecasting exception is
caught and yields a success=False dictionary. -/
def process_forecast_request (predict : Int → Rat) (rows : List (Int × Rat)) (n : Nat)
    (inventory : Option Int) (details : Option ItemDetails) : InsightResult :=
  match generate_forecast predict rows n with
  | none => .err .exceptionCaught
  | some f => generate_inventory_insights inventory details f

/-- One reorder_analysis record of find_items_to_reorder (the urgency_reasons
and recommendations lists, pure display text, are omitted). -/
structure Entry (ι : Type) where
  item_id : ι
  current_inventory : Int
  coverage_days : CoverageDays
  coverage_status : CovStatus
  reorder_point : Int
  below_rop : Bool
  expected_revenue : Rat
  profit_margin : Rat
  urgency_score : Int
  deriving DecidableEq

/-- Urgency score exactly as accumulated in the source loop: 100 for critical
coverage, else 50 for low coverage, plus 75 when stock is at or below the
reorder point, minus 20 when the profit margin is below 10. -/
def urgencyScore (inv : Int) (cov : CoverageInfo) (rop : RopInfo)
    (fin : FinancialInfo) : Int :=
  (if cov.status = .critical then 100 else if cov.status = .low then 50 else 0)
  + (if inv ≤ rop.reorder_point then 75 else 0)
  + (if fin.profit_margin < 10 then -20 else 0)

/-- The record appended to reorder_analysis for a successfully analysed item. -/
def mkEntry {ι : Type} (id : ι) (ins : Insight) : Entry ι :=
  { item_id := id
    current_inventory := ins.current_inventory
    coverage_days := ins.coverage.coverage_days
    coverage_status := ins.coverage.status
    reorder_point := ins.reorder.reorder_point
    below_rop := decide (ins.current_inventory ≤ ins.reorder.reorder_point)
    expected_revenue := ins.financial.expected_revenue
    profit_margin := ins.financial.profit_margin
    urgency_score := urgencyScore ins.current_inventory ins.coverage ins.reorder
      ins.financial }

/-- One catalog item as the ranker sees it: its id from the inv table, the
outcome of generating its forecast (none models a raised forecasting
exception), and its stock and item_dim lookups. -/
structure ItemRow (ι : Type) where
  item_id : ι
  forecast : Option (List FPoint)
  inv : Option Int
  details : Option ItemDetails
  deriving DecidableEq

/-- Body of the per-item loop of find_items_to_reorder: a raised forecasting
exception is caught by the per-item try/except and the item is skipped; an
unsuccessful insight is also skipped; a successful insight yields a ranking
entry. -/
def analyzeItem {ι : Type} (r : ItemRow ι) : Option (Entry ι) :=
  match r.forecast with
  | none => none
  | some f =>
    match generate_inventory_insights r.inv r.details f with
    | .ok ins => some (mkEntry r.item_id ins)
    | .err _ => none

/-- The two ways an item can be skipped by the loop: its forecast raised, or
its insight came back unsuccessful. -/
inductive SkipKind where
  | exceptionRaised
  | analysisFailed
  deriving DecidableEq

/-- Console record produced when an item is skipped: the loop prints an error
line naming the item and continues with the next one. -/
def skipOf {ι : Type} (r : ItemRow ι) : Option (ι × SkipKind) :=
  match r.forecast with
  | none => some (r.item_id, .exceptionRaised)
  | some f =>
    match generate_inventory_insights r.inv r.details f with
    | .ok _ => none
    | .err _ => some (r.item_id, .analysisFailed)

/-- Insertion keeping ascending item_id order, as the ORDER BY item_id clause
of the inv-table query that feeds the ranker. -/
def insertAscById {ι : Type} [LinearOrder ι] (r : ItemRow ι) :
    List (ItemRow ι) → List (ItemRow ι)
  | [] => [r]
  | y :: ys =>
    if r.item_id < y.item_id then r :: y :: ys else y :: insertAscById r ys

/-- The item list in the order the ranker receives it from the database. -/
def sortById {ι : Type} [LinearOrder ι] (l : List (ItemRow ι)) : List (ItemRow ι) :=
  l.foldl (fun acc r => insertAscById r acc) []

/-- Insertion keeping descending urgency_score order and stable for equal
scores, as the Python stable list.sort with reverse=True on the score key. -/
def insertDescByScore {ι : Type} (e : Entry ι) : List (Entry ι) → List (Entry ι)
  | [] => [e]
  | y :: ys =>
    if y.urgency_score < e.urgency_score then e :: y :: ys
    else y :: insertDescByScore e ys

/-- The stable descending sort of reorder_analysis by urgency score. -/
def sortByUrgency {ι : Type} (l : List (Entry ι)) : List (Entry ι) :=
  l.foldl (fun acc e => insertDescByScore e acc) []

/-- High-priority bucket: urgency score at least 75. -/
def bucketHigh {ι : Type} (l : List (Entry ι)) : List (Entry ι) :=
  l.filter (fun e => decide (75 ≤ e.urgency_score))

/-- Medium-priority bucket: urgency score at least 25 and below 75. -/
def bucketMedium {ι : Type} (l : List (Entry ι)) : List (Entry ι) :=
  l.filter (fun e => decide (25 ≤ e.urgency_score) && decide (e.urgency_score < 75))

/-- Low-priority bucket: urgency score below 25. -/
def bucketLow {ι : Type} (l : List (Entry ι)) : List (Entry ι) :=
  l.filter (fun e => decide (e.urgency_score < 25))

/-- Data-bearing lines of the results_string the ranker returns, one token per
line kind. The skipNote constructor is the record the spec requires for a
skipped item; it is part of the vocabulary so that its absence from the
produced report can be stated. -/
inductive ReportLine (ι : Type) where
  | found (n : Nat)
  | noAnalyses
  | itemLine (id : ι)
  | moreMedium (n : Nat)
  | lowCount (n : Nat)
  | summary (high medium low : Nat)
  | revenueAtRisk (q : Rat)
  | skipNote (id : ι) (k : SkipKind)
  deriving DecidableEq

/-- Bool recognizer for skip records in a report. -/
def isSkipNote {ι : Type} : ReportLine ι → Bool
  | .skipNote _ _ => true
  | _ => false

/-- Outcome of find_items_to_reorder: the sorted entries, the console log of
skipped items, and the data carried by the returned results_string. -/
structure RankResult (ι : Type) where
  entries : List (Entry ι)
  skipped : List (ι × SkipKind)
  report : List (ReportLine ι)

/-- reorder_priority_analysis.find_items_to_reorder over the inv table
contents: items are fetched in ascending item_id order and analysed one by
one; failures are printed to the console (the skipped log) and the loop
continues. With no successful analysis at all, the no-analyses message is
returned. Otherwise the entries are stably sorted by descending urgency score,
partitioned into the three priority buckets, and the returned report carries
the found count, the bucket listings (medium capped at three with an
and-more line), the low-priority count, the summary statistics and the
revenue at risk; no part of it records the skipped items. -/
def find_items_to_reorder {ι : Type} [LinearOrder ι] (table : List (ItemRow ι)) :
    RankResult ι :=
  let allItems := sortById table
  let analysis := allItems.filterMap analyzeItem
  let skipped := allItems.filterMap skipOf
  if analysis.isEmpty then
    { entries := [], skipped := skipped, report := [.noAnalyses] }
  else
    let sorted := sortByUrgency analysis
    let high := bucketHigh sorted
    let medium := bucketMedium sorted
    let low := bucketLow sorted
    { entries := sorted
      skipped := skipped
      report :=
        [.found table.length]
        ++ high.map (fun e => .itemLine e.item_id)
        ++ (medium.take 3).map (fun e => .itemLine e.item_id)
        ++ (if 3 < medium.length then [.moreMedium (medium.length - 3)] else [])
        ++ (if low.isEmpty then [] else [.lowCount low.length])
        ++ [.summary high.length medium.length low.length,
            .revenueAtRisk (high.map (fun e => e.expected_revenue)).sum] }

/-- Constant-demand forecast: n consecutive days starting at day d0, each with
demand v. -/
def constForecast (d0 : Int) (v : Rat) (n : Nat) : List FPoint :=
  (List.range n).map (fun j : Nat => { ds := d0 + (j : Int), yhat := v })

/-- Item details used by the concrete examples below. -/
def exampleDetails : ItemDetails := { price := 2, lead_time := 3, holding_cost := 1 / 10 }

/-- A catalog row whose analysis succeeds. -/
def goodRow (id : Nat) : ItemRow Nat :=
  { item_id := id
    forecast := some (constForecast 0 1 3)
    inv := some 5
    details := some exampleDetails }

/-- A catalog row whose forecast raises an upstream forecasting exception. -/
def badRow : ItemRow Nat :=
  { item_id := 2, forecast := none, inv := some 5, details := some exampleDetails }

/-- Five-item catalog with one failing forecast. -/
def exampleTable : List (ItemRow Nat) := [goodRow 0, goodRow 1, badRow, goodRow 3, goodRow 4]

/-- Rank of a coverage status along the critical, low, adequate, sufficient
direction. -/
def statusRank : CovStatus → Nat
  | .critical => 0
  | .low => 1
  | .adequate => 2
  | .sufficient => 3

/-- Order on coverage-day values that treats the beyond-horizon sentinel as
greater than every concrete day count. -/
def covDaysLE : CoverageDays → CoverageDays → Bool
  | .days m, .days n => decide (m ≤ n)
  | .days _, .beyond _ => true
  | .beyond _, .days _ => false
  | .beyond _, .beyond _ => true

/-- Row of the forecast at a position, with a dummy row past the end. -/
def fget (f : List FPoint) (j : Nat) : FPoint := f.getD j { ds := 0, yhat := 0 }

/-- Ordering the ranker must realize: strictly higher urgency score first, and
ascending item_id among equal scores. -/
def rankedBefore {ι : Type} [LinearOrder ι] (u v : Entry ι) : Prop :=
  v.urgency_score < u.urgency_score ∨
    (u.urgency_score = v.urgency_score ∧ u.item_id ≤ v.item_id)

/-- The ranking entry produced for the first example item. -/
def exEntry : Entry Nat :=
  { item_id := 0
    current_inventory := 5
    coverage_days := .beyond 3
    coverage_status := .sufficient
    reorder_point := 4
    below_rop := false
    expected_revenue := 6
    profit_margin := 85
    urgency_score := 0 }

theorem listMin?_eq_none {α : Type} [LinearOrder α] {l : List α} :
    listMin? l = none ↔ l = [] := by
  cases l <;> simp [listMin?]

theorem listMin?_mem {α : Type} [LinearOrder α] :
    ∀ {l : List α} {m : α}, listMin? l = some m → m ∈ l := by
  intro l
  induction l with
  | nil => intro m h; simp [listMin?] at h
  | cons x xs ih =>
    intro m h
    simp only [listMin?, Option.some.injEq] at h
    cases hx : listMin? xs with
    | none =>
      rw [hx] at h
      simp only at h
      subst h
      exact List.mem_cons_self x xs
    | some m0 =>
      rw [hx] at h
      simp only at h
      subst h
      rcases le_total x m0 with h1 | h1
      · rw [min_eq_left h1]; exact List.mem_cons_self x xs
      · rw [min_eq_right h1]; exact List.mem_cons_of_mem x (ih hx)

theorem listMin?_le {α : Type} [LinearOrder α] :
    ∀ {l : List α} {m : α}, listMin? l = some m → ∀ x ∈ l, m ≤ x := by
  intro l
  induction l with
  | nil => intro m h; simp
  | cons y ys ih =>
    intro m h x hx
    simp only [listMin?, Option.some.injEq] at h
    cases hy : listMin? ys with
    | none =>
      rw [hy] at h
      simp only at h
      subst h
      rw [listMin?_eq_none] at hy
      subst hy
      rcases List.mem_cons.mp hx with rfl | hx'
      · exact le_refl x
      · simp at hx'
    | some m0 =>
      rw [hy] at h
      simp only at h
      subst h
      rcases List.mem_cons.mp hx with rfl | hx'
      · exact min_le_left _ _
      · exact le_trans (min_le_right _ _) (ih hy _ hx')

theorem listMin?_eq_some {α : Type} [LinearOrder α] {l : List α} {m : α}
    (hm : m ∈ l) (hlb : ∀ x ∈ l, m ≤ x) : listMin? l = some m := by
  cases hl : listMin? l with
  | none =>
    rw [listMin?_eq_none] at hl
    subst hl
    simp at hm
  | some m0 =>
    have h2 : m0 ≤ m := listMin?_le hl m hm
    have h3 : m ≤ m0 := hlb m0 (listMin?_mem hl)
    rw [le_antisymm h2 h3]

theorem listMin?_isSome {α : Type} [LinearOrder α] {l : List α} (h : l ≠ []) :
    ∃ m, listMin? l = some m := by
  cases l with
  | nil => exact absurd rfl h
  | cons x xs => exact ⟨_, rfl⟩

theorem length_withCum (f : List FPoint) (c : Rat) : (withCum f c).length = f.length := by
  induction f generalizing c with
  | nil => rfl
  | cons p rest ih => simp [withCum, ih]

theorem withCum_eq_map_range (f : List FPoint) (c : Rat) :
    withCum f c = (List.range f.length).map
      (fun j => (fget f j, c + sumTake f (j + 1))) := by
  induction f generalizing c with
  | nil => rfl
  | cons p rest ih =>
    simp only [withCum, List.length_cons, List.range_succ_eq_map, List.map_cons,
      List.map_map]
    have hhead : fget (p :: rest) 0 = p := rfl
    have hsum1 : sumTake (p :: rest) 1 = p.yhat := by
      simp [sumTake]
    rw [hhead, hsum1, ih (c + p.yhat)]
    congr 1
    apply List.map_congr_left
    intro j _
    have h1 : fget (p :: rest) (j + 1) = fget rest j := rfl
    have h2 : sumTake (p :: rest) (j + 2) = p.yhat + sumTake rest (j + 1) := by
      simp [sumTake, List.take_succ_cons]
    simp [Function.comp, h1, h2]
    ring

theorem fget_mem {f : List FPoint} {j : Nat} (h : j < f.length) : fget f j ∈ f := by
  unfold fget
  rw [List.getD_eq_getElem _ _ h]
  exact List.getElem_mem h

theorem exists_fget_of_mem {f : List FPoint} {p : FPoint} (h : p ∈ f) :
    ∃ j, j < f.length ∧ fget f j = p := by
  obtain ⟨i, hi, hip⟩ := List.mem_iff_getElem.mp h
  exact ⟨i, hi, by rw [fget, List.getD_eq_getElem _ _ hi, hip]⟩

theorem mem_qualDates {f : List FPoint} {inv : Rat} {x : Int} :
    x ∈ qualDates f inv ↔
      ∃ j, j < f.length ∧ inv ≤ sumTake f (j + 1) ∧ (fget f j).ds = x := by
  unfold qualDates
  rw [withCum_eq_map_range]
  constructor
  · intro hx
    obtain ⟨pc, hpc, hds⟩ := List.mem_map.mp hx
    have hpc' := List.mem_filter.mp hpc
    obtain ⟨j, hj, hval⟩ := List.mem_map.mp hpc'.1
    have hjlen : j < f.length := List.mem_range.mp hj
    refine ⟨j, hjlen, ?_, ?_⟩
    · have := hpc'.2
      rw [← hval] at this
      simpa using this
    · rw [← hds, ← hval]
  · rintro ⟨j, hj, hcum, hds⟩
    apply List.mem_map.mpr
    refine ⟨(fget f j, 0 + sumTake f (j + 1)), ?_, hds⟩
    apply List.mem_filter.mpr
    refine ⟨List.mem_map.mpr ⟨j, List.mem_range.mpr hj, rfl⟩, ?_⟩
    simpa using hcum

theorem getLast?_isSome_of_ne_nil {α : Type} {l : List α} (h : l ≠ []) :
    ∃ x, l.getLast? = some x := by
  induction l with
  | nil => exact absurd rfl h
  | cons a l' ih =>
    cases l' with
    | nil => exact ⟨a, rfl⟩
    | cons b l'' =>
      obtain ⟨x, hx⟩ := ih (by simp)
      exact ⟨x, by rw [List.getLast?_cons_cons, hx]⟩

theorem coverage_isSome (f : List FPoint) (inv : Rat) (hne : f ≠ []) :
    ∃ r, calculate_coverage_days f inv = some r := by
  cases hq : listMin? (qualDates f inv) with
  | some cu =>
    exact ⟨_, by unfold calculate_coverage_days; rw [hq]⟩
  | none =>
    have hne' : ((withCum f 0).map (fun pc => pc.2)) ≠ [] := by
      intro hcontra
      apply hne
      have hlen := congrArg List.length hcontra
      simp [length_withCum] at hlen
      exact hlen
    obtain ⟨t, ht⟩ := getLast?_isSome_of_ne_nil hne'
    exact ⟨_, by unfold calculate_coverage_days; rw [hq, ht]; rfl⟩

theorem dates_pointwise {f : List FPoint} {a : Int}
    (hd : f.map FPoint.ds = (List.range f.length).map (fun j : Nat => a + (j : Int))) :
    ∀ j, j < f.length → (fget f j).ds = a + (j : Int) := by
  intro j hj
  have h1 : (f.map FPoint.ds)[j]? = some ((fget f j).ds) := by
    rw [List.getElem?_map, List.getElem?_eq_getElem hj]
    rw [fget, List.getD_eq_getElem _ _ hj]
    rfl
  have h2 : ((List.range f.length).map (fun j : Nat => a + (j : Int)))[j]? =
      some (a + (j : Int)) := by
    rw [List.getElem?_map, List.getElem?_range hj]
    rfl
  rw [hd] at h1
  rw [h1] at h2
  exact Option.some.inj h2

/-- C1: on a nonempty forecast of consecutive dates with non-negative demand
and non-negative stock, the Coverage Analyzer returns, for the first index i
whose running cumulative demand reaches the stock, coverage_days i and
exhaustion at the date of index i, with status critical up to 7 days, low up
to 14, adequate beyond. -/
theorem C1_coverage_first_crossing (f : List FPoint) (a : Int) (inv : Rat) (i : Nat)
    (hne : f ≠ [])
    (hd : f.map FPoint.ds = (List.range f.length).map (fun j : Nat => a + (j : Int)))
    (hpos : ∀ p ∈ f, 0 ≤ p.yhat) (hinv : 0 ≤ inv)
    (hi : i < f.length) (hcross : inv ≤ sumTake f (i + 1))
    (hfirst : ∀ j, j < i → sumTake f (j + 1) < inv) :
    calculate_coverage_days f inv =
      some { cover_until := some (a + (i : Int))
             coverage_days := .days (i : Int)
             status := if (i : Int) ≤ 7 then .critical
                       else if (i : Int) ≤ 14 then .low else .adequate
             remaining_inventory := 0 } := by
  have hds := dates_pointwise hd
  have hqmem : (a + (i : Int)) ∈ qualDates f inv :=
    mem_qualDates.mpr ⟨i, hi, hcross, hds i hi⟩
  have hqlb : ∀ x ∈ qualDates f inv, (a + (i : Int)) ≤ x := by
    intro x hx
    obtain ⟨j, hj, hcum, hdsj⟩ := mem_qualDates.mp hx
    have hij : i ≤ j := by
      by_contra hlt
      push_neg at hlt
      exact absurd hcum (not_le.mpr (hfirst j hlt))
    rw [← hdsj, hds j hj]
    omega
  have hqmin : listMin? (qualDates f inv) = some (a + (i : Int)) :=
    listMin?_eq_some hqmem hqlb
  have h0 : 0 < f.length := List.length_pos.mpr hne
  have hdsmin : dsMin f = a := by
    have hds0 : (fget f 0).ds = a := by
      rw [hds 0 h0]
      simp
    have hmem : a ∈ f.map FPoint.ds := by
      rw [← hds0]
      exact List.mem_map_of_mem FPoint.ds (fget_mem h0)
    have hlb : ∀ x ∈ f.map FPoint.ds, a ≤ x := by
      intro x hx
      obtain ⟨p, hp, hpx⟩ := List.mem_map.mp hx
      obtain ⟨j, hj, rfl⟩ := exists_fget_of_mem hp
      rw [← hpx, hds j hj]
      omega
    unfold dsMin
    rw [listMin?_eq_some hmem hlb]
    rfl
  have hsub : a + (i : Int) - a = (i : Int) := by ring
  unfold calculate_coverage_days
  rw [hqmin]
  simp only [hdsmin, hsub, statusOf]

/-- C1 witness: a 30-day forecast of constant demand 100 per day with 250
units on hand is exhausted at day index 2 with status critical. -/
theorem C1_witness :
    calculate_coverage_days (constForecast 0 100 30) 250 =
      some { cover_until := some 2
             coverage_days := .days 2
             status := .critical
             remaining_inventory := 0 } := by
  have h := C1_coverage_first_crossing (constForecast 0 100 30) 0 250 2
    (by with_unfolding_all decide) (by with_unfolding_all decide)
    (by with_unfolding_all decide) (by with_unfolding_all decide)
    (by with_unfolding_all decide) (by with_unfolding_all decide)
    (by with_unfolding_all decide)
  simpa using h

/-- C4 counterexample: with zero stock the source reports exhaustion at the
very first forecast date even when that day has zero demand (first input: the
positive-demand day is day 1, yet exhaustion is reported at day 0), and an
all-zero-demand forecast still yields critical exhaustion at day 0, not the
sufficient status the claim requires. -/
theorem C4_counterexample :
    calculate_coverage_days [{ ds := 0, yhat := 0 }, { ds := 1, yhat := 5 }] 0 =
      some { cover_until := some 0
             coverage_days := .days 0
             status := .critical
             remaining_inventory := 0 } ∧
    calculate_coverage_days [{ ds := 0, yhat := 0 }] 0 =
      some { cover_until := some 0
             coverage_days := .days 0
             status := .critical
             remaining_inventory := 0 } := by
  constructor <;> with_unfolding_all rfl

/-- C4 amended: with zero stock and non-negative demand, the Coverage Analyzer
reports exhaustion at the earliest forecast date — coverage_days 0 and status
critical — whatever the demand profile, because cumulative demand is at least
zero from the first row on; the sufficient branch is never taken. -/
theorem C4_zero_stock (f : List FPoint) (m : Int)
    (hpos : ∀ p ∈ f, 0 ≤ p.yhat)
    (hm : listMin? (f.map FPoint.ds) = some m) :
    calculate_coverage_days f 0 =
      some { cover_until := some m
             coverage_days := .days 0
             status := .critical
             remaining_inventory := 0 } := by
  have hcum : ∀ j, j < f.length → (0 : Rat) ≤ sumTake f (j + 1) := by
    intro j hj
    apply List.sum_nonneg
    intro x hx
    obtain ⟨p, hp, rfl⟩ := List.mem_map.mp hx
    exact hpos p (List.mem_of_mem_take hp)
  have hmem : m ∈ qualDates f 0 := by
    obtain ⟨p, hp, hpm⟩ := List.mem_map.mp (listMin?_mem hm)
    obtain ⟨j, hj, rfl⟩ := exists_fget_of_mem hp
    exact mem_qualDates.mpr ⟨j, hj, hcum j hj, hpm⟩
  have hlb : ∀ x ∈ qualDates f 0, m ≤ x := by
    intro x hx
    obtain ⟨j, hj, _, hdsj⟩ := mem_qualDates.mp hx
    rw [← hdsj]
    exact listMin?_le hm _ (List.mem_map_of_mem FPoint.ds (fget_mem hj))
  have hqmin := listMin?_eq_some hmem hlb
  have hdsmin : dsMin f = m := by
    unfold dsMin
    rw [hm]
    rfl
  unfold calculate_coverage_days
  rw [hqmin]
  simp only [hdsmin, sub_self, statusOf]
  norm_num

/-- C4 witness: a one-day forecast with zero demand and zero stock is reported
as exhausted at its first date with status critical. -/
theorem C4_witness :
    calculate_coverage_days [{ ds := 5, yhat := 0 }] 0 =
      some { cover_until := some 5
             coverage_days := .days 0
             status := .critical
             remaining_inventory := 0 } :=
  C4_zero_stock [{ ds := 5, yhat := 0 }] 5 (by with_unfolding_all decide)
    (by with_unfolding_all rfl)

/-- C5 counterexample: negative stock is not rejected — the Coverage Analyzer
returns an ordinary coverage result (exhaustion at day 0, status critical) for
on_hand_units of minus five. -/
theorem C5_counterexample :
    calculate_coverage_days [{ ds := 0, yhat := 100 }] (-5) =
      some { cover_until := some 0
             coverage_days := .days 0
             status := .critical
             remaining_inventory := 0 } := by
  with_unfolding_all rfl

/-- C5 amended: the Coverage Analyzer performs no input validation: every
nonempty forecast — sorted or not, gapped or not — and every stock level,
negative included, produces a coverage result; only the empty forecast fails,
and then with an untyped indexing error rather than a typed rejection. -/
theorem C5_no_validation (f : List FPoint) (inv : Rat) :
    (f ≠ [] → ∃ r, calculate_coverage_days f inv = some r) ∧
    (f = [] → calculate_coverage_days f inv = none) := by
  constructor
  · exact coverage_isSome f inv
  · intro h
    subst h
    rfl

/-- C5 witness: a one-row forecast with stock minus five yields a result, and
the empty forecast yields the error. -/
theorem C5_witness :
    (∃ r, calculate_coverage_days [{ ds := 0, yhat := 100 }] (-5) = some r) ∧
    calculate_coverage_days [] (3 : Rat) = none :=
  ⟨(C5_no_validation [{ ds := 0, yhat := 100 }] (-5)).1 (by simp),
   (C5_no_validation [] (3 : Rat)).2 rfl⟩

theorem qualDates_mono {f : List FPoint} {a b : Rat} (hab : a ≤ b) :
    ∀ x ∈ qualDates f b, x ∈ qualDates f a := by
  intro x hx
  obtain ⟨j, hj, hc, hd⟩ := mem_qualDates.mp hx
  exact mem_qualDates.mpr ⟨j, hj, le_trans hab hc, hd⟩

theorem statusOf_rank_mono {x y : Int} (h : x ≤ y) :
    statusRank (statusOf x) ≤ statusRank (statusOf y) := by
  simp only [statusOf]
  split_ifs <;> simp_all [statusRank] <;> omega

/-- C9: for a fixed nonempty forecast the Coverage Analyzer is monotone in
stock: with non-negative stock levels a at most b, the coverage days for a are
at most those for b (the beyond-horizon sentinel counting as largest), and the
status rank can only move in the critical, low, adequate, sufficient
direction. -/
theorem C9_coverage_monotone (f : List FPoint) (a b : Rat)
    (hne : f ≠ []) (ha : 0 ≤ a) (hab : a ≤ b) :
    ∃ ra rb, calculate_coverage_days f a = some ra ∧
      calculate_coverage_days f b = some rb ∧
      covDaysLE ra.coverage_days rb.coverage_days = true ∧
      statusRank ra.status ≤ statusRank rb.status := by
  cases hqb : listMin? (qualDates f b) with
  | none =>
    obtain ⟨ra, hra⟩ := coverage_isSome f a hne
    have hne' : ((withCum f 0).map (fun pc => pc.2)) ≠ [] := by
      intro hcontra
      apply hne
      have hlen := congrArg List.length hcontra
      simp [length_withCum] at hlen
      exact hlen
    obtain ⟨t, ht⟩ := getLast?_isSome_of_ne_nil hne'
    have hrb : calculate_coverage_days f b =
        some { cover_until := none, coverage_days := .beyond f.length,
               status := .sufficient, remaining_inventory := b - t } := by
      unfold calculate_coverage_days
      rw [hqb, ht]
      rfl
    refine ⟨ra, _, hra, hrb, ?_, ?_⟩
    · cases ra.coverage_days <;> rfl
    · cases ra.status <;> simp [statusRank]
  | some mb =>
    have hmb_a : mb ∈ qualDates f a := qualDates_mono hab _ (listMin?_mem hqb)
    obtain ⟨ma, hqa⟩ := listMin?_isSome (List.ne_nil_of_mem hmb_a)
    have hma_le : ma ≤ mb := listMin?_le hqa _ hmb_a
    have hca : calculate_coverage_days f a =
        some { cover_until := some ma, coverage_days := .days (ma - dsMin f),
               status := statusOf (ma - dsMin f), remaining_inventory := 0 } := by
      unfold calculate_coverage_days
      rw [hqa]
    have hcb : calculate_coverage_days f b =
        some { cover_until := some mb, coverage_days := .days (mb - dsMin f),
               status := statusOf (mb - dsMin f), remaining_inventory := 0 } := by
      unfold calculate_coverage_days
      rw [hqb]
    refine ⟨_, _, hca, hcb, ?_, ?_⟩
    · simp only [covDaysLE, decide_eq_true_eq]
      omega
    · exact statusOf_rank_mono (by omega)

/-- C9 witness: on a three-day forecast of constant demand 100, stock 150 is
exhausted at day 1 (critical) while stock 10000 outlasts the horizon
(sufficient); days and status rank both increase. -/
theorem C9_witness :
    ∃ ra rb, calculate_coverage_days (constForecast 0 100 3) 150 = some ra ∧
      calculate_coverage_days (constForecast 0 100 3) 10000 = some rb ∧
      covDaysLE ra.coverage_days rb.coverage_days = true ∧
      statusRank ra.status ≤ statusRank rb.status :=
  C9_coverage_monotone (constForecast 0 100 3) 150 10000
    (by with_unfolding_all decide) (by with_unfolding_all decide)
    (by with_unfolding_all decide)

/-- C6 counterexample: with an empty forecast the Coverage Analyzer fails
(none, a raised exception), yet the source composer returns the ordinary
success=False dictionary — the exception is caught, not propagated — whereas
the spec composer fails outright. -/
theorem C6_counterexample :
    calculate_coverage_days ([] : List FPoint) ((5 : Int) : Rat) = none ∧
    generate_inventory_insights (some 5) (some exampleDetails) [] =
      .err .exceptionCaught ∧
    spec_compose_propagating (some 5) (some exampleDetails) [] = none := by
  refine ⟨rfl, ?_, ?_⟩ <;> with_unfolding_all rfl

/-- C6 amended: the Composer catches analyzer failures: whenever the Coverage
Analyzer raises, generate_inventory_insights returns the success=False
dictionary for a caught exception to its caller instead of letting the
exception propagate; the analyzers themselves perform no fail-fast input
validation. -/
theorem C6_composer_catches (inv : Int) (d : ItemDetails) (f : List FPoint)
    (h : calculate_coverage_days f (inv : Rat) = none) :
    generate_inventory_insights (some inv) (some d) f = .err .exceptionCaught := by
  have hf : f = [] := by
    by_contra hne
    obtain ⟨r, hr⟩ := coverage_isSome f (inv : Rat) hne
    rw [hr] at h
    exact Option.noConfusion h
  subst hf
  rfl

/-- C6 witness: the amended behavior at a concrete input. -/
theorem C6_witness :
    generate_inventory_insights (some 7) (some exampleDetails) [] =
      .err .exceptionCaught :=
  C6_composer_catches 7 exampleDetails [] rfl

/-- C2: the Reorder Policy Calculator sums the first lead_time demands when the
forecast has at least lead_time points, otherwise extrapolates mean daily
demand times lead time; safety stock is lead-time demand times a quarter and
the reorder point lead-time demand times five quarters under the default
safety factor of 1.25, rounded for the returned dictionary. -/
theorem C2_reorder_formulas (f : List FPoint) (lead_time : Nat) (hne : f ≠ []) :
    (lead_time ≤ f.length →
      calculate_reorder_point f lead_time (5 / 4) =
        some { reorder_point := pyRound (((f.take lead_time).map FPoint.yhat).sum * (5 / 4))
               lead_time_demand := pyRound (((f.take lead_time).map FPoint.yhat).sum)
               safety_stock := pyRound (((f.take lead_time).map FPoint.yhat).sum * (1 / 4))
               safety_factor := 5 / 4 }) ∧
    (f.length < lead_time →
      calculate_reorder_point f lead_time (5 / 4) =
        some { reorder_point :=
                 pyRound ((f.map FPoint.yhat).sum / (f.length : Rat) * (lead_time : Rat) * (5 / 4))
               lead_time_demand :=
                 pyRound ((f.map FPoint.yhat).sum / (f.length : Rat) * (lead_time : Rat))
               safety_stock :=
                 pyRound ((f.map FPoint.yhat).sum / (f.length : Rat) * (lead_time : Rat) * (1 / 4))
               safety_factor := 5 / 4 }) := by
  have h14 : (5 : Rat) / 4 - 1 = 1 / 4 := by norm_num
  constructor
  · intro hle
    have hnot : ¬ (f.length < lead_time) := not_lt.mpr hle
    simp [calculate_reorder_point, leadTimeDemand, hnot, h14]
  · intro hlt
    have hlen : ¬ (f.length = 0) := by
      intro h0
      exact hne (List.length_eq_zero.mp h0)
    simp [calculate_reorder_point, leadTimeDemand, hlt, hlen, h14]

/-- C2 witness: lead time 40 against a 30-day forecast of constant demand 100
extrapolates lead-time demand to 4000 — not a truncated sum — giving reorder
point 5000 and safety stock 1000. -/
theorem C2_witness :
    calculate_reorder_point (constForecast 0 100 30) 40 (5 / 4) =
      some { reorder_point := 5000
             lead_time_demand := 4000
             safety_stock := 1000
             safety_factor := 5 / 4 } := by
  have h := (C2_reorder_formulas (constForecast 0 100 30) 40
    (by with_unfolding_all decide)).2 (by with_unfolding_all decide)
  rw [h]
  with_unfolding_all rfl

theorem pyRound1_zero : pyRound1 0 = 0 := by
  with_unfolding_all rfl

/-- C10: the Financial Projector returns a profit margin computed as gross
profit over expected revenue times 100 (rounded to one decimal) only under
the guard that expected revenue is positive, and returns 0 otherwise; in
particular zero expected revenue yields margin 0 and the division is never
taken with a zero divisor. -/
theorem C10_margin_guard (f : List FPoint) (inv : Int) (price rate : Rat)
    (hne : f ≠ []) :
    ∃ fi, calculate_financial_metrics f inv price rate = some fi ∧
      fi.profit_margin =
        (if 0 < expectedRevenue f inv price then
           pyRound1 (grossProfit f inv price rate / expectedRevenue f inv price * 100)
         else 0) ∧
      (expectedRevenue f inv price = 0 → fi.profit_margin = 0) := by
  have hlen : ¬ (f.length = 0) := by
    intro h0
    exact hne (List.length_eq_zero.mp h0)
  have hsome : calculate_financial_metrics f inv price rate =
      some { expected_revenue := pyRound2 (expectedRevenue f inv price)
             expected_sales := pyRound (expectedSales f inv)
             total_demand := pyRound (totalDemand f)
             avg_inventory := pyRound1 (avgInventory f inv)
             holding_cost := pyRound2 (holdingCost f inv rate)
             gross_profit := pyRound2 (grossProfit f inv price rate)
             profit_margin :=
               pyRound1 (if 0 < expectedRevenue f inv price then
                   grossProfit f inv price rate / expectedRevenue f inv price * 100
                 else 0) } := by
    simp [calculate_financial_metrics, hlen]
  refine ⟨_, hsome, ?_, ?_⟩
  · by_cases h : 0 < expectedRevenue f inv price
    · simp [h]
    · simp [h, pyRound1_zero]
  · intro h0
    have hneg : ¬ (0 < expectedRevenue f inv price) := by
      rw [h0]
      exact lt_irrefl 0
    simp [hneg, pyRound1_zero]

/-- C10 witness: a one-day forecast with price zero makes expected revenue
zero and the returned margin is 0. -/
theorem C10_witness :
    ∃ fi, calculate_financial_metrics [{ ds := 0, yhat := 5 }] 10 0 1 = some fi ∧
      fi.profit_margin = 0 := by
  obtain ⟨fi, h1, _, h3⟩ := C10_margin_guard [{ ds := 0, yhat := 5 }] 10 0 1 (by simp)
  exact ⟨fi, h1, h3 (by with_unfolding_all rfl)⟩

theorem rop_isSome (f : List FPoint) (lead_time : Nat) (sf : Rat) (hne : f ≠ []) :
    ∃ r, calculate_reorder_point f lead_time sf = some r := by
  have hlen : ¬ (f.length = 0) := fun h0 => hne (List.length_eq_zero.mp h0)
  unfold calculate_reorder_point leadTimeDemand
  by_cases h1 : f.length < lead_time
  · rw [if_pos h1, if_neg hlen]
    exact ⟨_, rfl⟩
  · rw [if_neg h1]
    exact ⟨_, rfl⟩

theorem fin_isSome (f : List FPoint) (inv : Int) (price rate : Rat) (hne : f ≠ []) :
    ∃ r, calculate_financial_metrics f inv price rate = some r := by
  have hlen : ¬ (f.length = 0) := fun h0 => hne (List.length_eq_zero.mp h0)
  unfold calculate_financial_metrics
  rw [if_neg hlen]
  exact ⟨_, rfl⟩

theorem insights_ok_period (inv : Int) (d : ItemDetails) (f : List FPoint)
    (hne : f ≠ []) :
    ∃ ins, generate_inventory_insights (some inv) (some d) f = .ok ins ∧
      ins.forecast_period_days = f.length := by
  obtain ⟨cov, hcov⟩ := coverage_isSome f (inv : Rat) hne
  obtain ⟨rop, hrop⟩ := rop_isSome f d.lead_time (5 / 4) hne
  obtain ⟨fin, hfin⟩ := fin_isSome f inv d.price d.holding_cost hne
  refine ⟨{ current_inventory := inv, coverage := cov, reorder := rop, financial := fin,
            recommendations := buildRecommendations inv cov rop fin,
            forecast_period_days := f.length }, ?_, rfl⟩
  have hred : generate_inventory_insights (some inv) (some d) f =
      (match calculate_coverage_days f (inv : Rat),
             calculate_reorder_point f d.lead_time (5 / 4),
             calculate_financial_metrics f inv d.price d.holding_cost with
       | some cov, some rop, some fin =>
         InsightResult.ok
           { current_inventory := inv
             coverage := cov
             reorder := rop
             financial := fin
             recommendations := buildRecommendations inv cov rop fin
             forecast_period_days := f.length }
       | _, _, _ => InsightResult.err ErrReason.exceptionCaught) := rfl
  rw [hred, hcov, hrop, hfin]

/-- C3: generate_forecast returns one row per historical calendar day plus the
forecast_days future rows, the table starts at the first historical date, and
process_forecast_request hands this full table unsliced to the inventory
analysis, whose forecast_period_days is therefore the history length plus
forecast_days, never forecast_days alone. -/
theorem C3_history_included (predict : Int → Rat) (rows : List (Int × Rat)) (n : Nat)
    (inv : Int) (d : ItemDetails) (a b : Int)
    (ha : listMin? (rows.map (fun r => r.1)) = some a)
    (hb : listMax? (rows.map (fun r => r.1)) = some b) :
    ∃ f, generate_forecast predict rows n = some f ∧
      f.length = ((b - a).toNat + 1) + n ∧
      (f.map FPoint.ds).head? = some a ∧
      ∃ ins, process_forecast_request predict rows n (some inv) (some d) = .ok ins ∧
        ins.forecast_period_days = ((b - a).toNat + 1) + n ∧
        ins.forecast_period_days ≠ n := by
  have hfill : fillGaps rows = some ((List.range ((b - a).toNat + 1)).map
      (fun j : Nat => (a + (j : Int), (List.lookup (a + (j : Int)) rows).getD 0))) := by
    unfold fillGaps
    rw [ha, hb]
  obtain ⟨F, hF⟩ : ∃ F, generate_forecast predict rows n = some F := by
    unfold generate_forecast
    rw [hfill]
    exact ⟨_, rfl⟩
  have hFval : generate_forecast predict rows n = some F := hF
  unfold generate_forecast at hF
  rw [hfill] at hF
  simp only [Option.map_some] at hF
  have hlenF : F.length = ((b - a).toNat + 1) + n := by
    rw [← Option.some.inj hF]
    simp
  have hFne : F ≠ [] := by
    intro hcon
    rw [hcon] at hlenF
    simp only [List.length_nil] at hlenF
    omega
  have hhead : (F.map FPoint.ds).head? = some a := by
    rw [← Option.some.inj hF]
    simp only [List.map_map, List.map_append]
    rw [List.range_succ_eq_map]
    simp [Function.comp]
  obtain ⟨ins, hins, hper⟩ := insights_ok_period inv d F hFne
  refine ⟨F, hFval, hlenF, hhead, ins, ?_, ?_, ?_⟩
  · unfold process_forecast_request
    rw [hFval]
    exact hins
  · rw [hper, hlenF]
  · rw [hper, hlenF]
    omega

/-- C3 witness: with a two-row history on days 0 and 2 (a gap at day 1) and a
requested horizon of 4 days, the forecast has 3 history rows plus 4 future
rows, starts at day 0, and the reported forecast_period_days is 7, not 4. -/
theorem C3_witness :
    ∃ f, generate_forecast (fun d => (d : Rat)) [(0, 2), (2, 1)] 4 = some f ∧
      f.length = 7 ∧
      (f.map FPoint.ds).head? = some 0 ∧
      ∃ ins, process_forecast_request (fun d => (d : Rat)) [(0, 2), (2, 1)] 4
          (some 10) (some exampleDetails) = .ok ins ∧
        ins.forecast_period_days = 7 ∧
        ins.forecast_period_days ≠ 4 := by
  have h := C3_history_included (fun d => (d : Rat)) [(0, 2), (2, 1)] 4 10
    exampleDetails 0 2 (by with_unfolding_all rfl) (by with_unfolding_all rfl)
  have e : ((2 : Int) - 0).toNat + 1 + 4 = 7 := by decide
  obtain ⟨f, h1, h2, h3, ins, h4, h5, h6⟩ := h
  rw [e] at h2 h5
  exact ⟨f, h1, h2, h3, ins, h4, h5, h6⟩

theorem mem_insertAscById {ι : Type} [LinearOrder ι] (r x : ItemRow ι)
    (l : List (ItemRow ι)) :
    x ∈ insertAscById r l ↔ x = r ∨ x ∈ l := by
  induction l with
  | nil => simp [insertAscById]
  | cons y ys ih =>
    simp only [insertAscById]
    split_ifs
    · simp [List.mem_cons]
    · simp only [List.mem_cons, ih]
      tauto

theorem mem_insertDescByScore {ι : Type} (e x : Entry ι) (l : List (Entry ι)) :
    x ∈ insertDescByScore e l ↔ x = e ∨ x ∈ l := by
  induction l with
  | nil => simp [insertDescByScore]
  | cons y ys ih =>
    simp only [insertDescByScore]
    split_ifs
    · simp [List.mem_cons]
    · simp only [List.mem_cons, ih]
      tauto

theorem mem_sortById_aux {ι : Type} [LinearOrder ι] (l acc : List (ItemRow ι))
    (x : ItemRow ι) :
    x ∈ l.foldl (fun acc r => insertAscById r acc) acc ↔ x ∈ l ∨ x ∈ acc := by
  induction l generalizing acc with
  | nil => simp
  | cons r l' ih =>
    simp only [List.foldl_cons]
    rw [ih]
    simp only [mem_insertAscById, List.mem_cons]
    tauto

theorem mem_sortById {ι : Type} [LinearOrder ι] (l : List (ItemRow ι)) (x : ItemRow ι) :
    x ∈ sortById l ↔ x ∈ l := by
  unfold sortById
  rw [mem_sortById_aux]
  simp

theorem mem_sortByUrgency_aux {ι : Type} (l acc : List (Entry ι)) (x : Entry ι) :
    x ∈ l.foldl (fun acc e => insertDescByScore e acc) acc ↔ x ∈ l ∨ x ∈ acc := by
  induction l generalizing acc with
  | nil => simp
  | cons e l' ih =>
    simp only [List.foldl_cons]
    rw [ih]
    simp only [mem_insertDescByScore, List.mem_cons]
    tauto

theorem mem_sortByUrgency {ι : Type} (l : List (Entry ι)) (x : Entry ι) :
    x ∈ sortByUrgency l ↔ x ∈ l := by
  unfold sortByUrgency
  rw [mem_sortByUrgency_aux]
  simp

theorem pairwise_insertAscById {ι : Type} [LinearOrder ι] (r : ItemRow ι)
    (l : List (ItemRow ι))
    (h : l.Pairwise (fun u v => u.item_id ≤ v.item_id)) :
    (insertAscById r l).Pairwise (fun u v => u.item_id ≤ v.item_id) := by
  induction l with
  | nil => simp [insertAscById]
  | cons y ys ih =>
    rcases List.pairwise_cons.mp h with ⟨hy, hys⟩
    simp only [insertAscById]
    split_ifs with hlt
    · refine List.pairwise_cons.mpr ⟨?_, h⟩
      intro z hz
      rcases List.mem_cons.mp hz with rfl | hz'
      · exact le_of_lt hlt
      · exact le_trans (le_of_lt hlt) (hy z hz')
    · refine List.pairwise_cons.mpr ⟨?_, ih hys⟩
      intro z hz
      rcases (mem_insertAscById r z ys).mp hz with rfl | hz'
      · exact not_lt.mp hlt
      · exact hy z hz'

theorem pairwise_sortById_aux {ι : Type} [LinearOrder ι] (l acc : List (ItemRow ι))
    (hacc : acc.Pairwise (fun u v => u.item_id ≤ v.item_id)) :
    (l.foldl (fun acc r => insertAscById r acc) acc).Pairwise
      (fun u v => u.item_id ≤ v.item_id) := by
  induction l generalizing acc with
  | nil => exact hacc
  | cons r l' ih => exact ih _ (pairwise_insertAscById r acc hacc)

theorem pairwise_sortById {ι : Type} [LinearOrder ι] (l : List (ItemRow ι)) :
    (sortById l).Pairwise (fun u v => u.item_id ≤ v.item_id) :=
  pairwise_sortById_aux l [] (by simp)

theorem pairwise_filterMap_of {α β : Type} {P : α → α → Prop} {Q : β → β → Prop}
    (g : α → Option β)
    (hg : ∀ a b x y, P a b → g a = some x → g b = some y → Q x y) :
    ∀ {l : List α}, l.Pairwise P → (l.filterMap g).Pairwise Q := by
  intro l hl
  induction hl with
  | nil => simp
  | @cons a l' h1 h2 ih =>
    rw [List.filterMap_cons]
    cases hga : g a with
    | none => exact ih
    | some x =>
      refine List.pairwise_cons.mpr ⟨?_, ih⟩
      intro y hy
      obtain ⟨b, hb, hgb⟩ := List.mem_filterMap.mp hy
      exact hg a b x y (h1 b hb) hga hgb

theorem analyzeItem_id {ι : Type} {r : ItemRow ι} {e : Entry ι}
    (h : analyzeItem r = some e) : e.item_id = r.item_id := by
  unfold analyzeItem at h
  cases hf : r.forecast with
  | none =>
    rw [hf] at h
    exact Option.noConfusion h
  | some f =>
    rw [hf] at h
    have h' : (match generate_inventory_insights r.inv r.details f with
        | InsightResult.ok ins => some (mkEntry r.item_id ins)
        | InsightResult.err _ => none) = some e := h
    cases hins : generate_inventory_insights r.inv r.details f with
    | ok ins =>
      rw [hins] at h'
      injection h' with h'
      rw [← h']
      rfl
    | err x =>
      rw [hins] at h'
      exact Option.noConfusion h'

theorem rankedBefore_score {ι : Type} [LinearOrder ι] {u v : Entry ι}
    (h : rankedBefore u v) : v.urgency_score ≤ u.urgency_score := by
  rcases h with h | ⟨h, _⟩
  · exact le_of_lt h
  · omega

theorem pairwise_insertDescByScore {ι : Type} [LinearOrder ι] (e : Entry ι)
    (l : List (Entry ι)) (hl : l.Pairwise rankedBefore)
    (hid : ∀ y ∈ l, y.item_id ≤ e.item_id) :
    (insertDescByScore e l).Pairwise rankedBefore := by
  induction l with
  | nil => simp [insertDescByScore]
  | cons y ys ih =>
    rcases List.pairwise_cons.mp hl with ⟨hy, hys⟩
    simp only [insertDescByScore]
    split_ifs with hlt
    · refine List.pairwise_cons.mpr ⟨?_, hl⟩
      intro z hz
      rcases List.mem_cons.mp hz with rfl | hz'
      · exact Or.inl hlt
      · exact Or.inl (lt_of_le_of_lt (rankedBefore_score (hy z hz')) hlt)
    · refine List.pairwise_cons.mpr
        ⟨?_, ih hys (fun z hz => hid z (List.mem_cons_of_mem y hz))⟩
      intro z hz
      rcases (mem_insertDescByScore e z ys).mp hz with rfl | hz'
      · rcases lt_or_eq_of_le (not_lt.mp hlt) with h1 | h1
        · exact Or.inl h1
        · exact Or.inr ⟨h1.symm, hid y (List.mem_cons_self y ys)⟩
      · exact hy z hz'

theorem pairwise_sortByUrgency_aux {ι : Type} [LinearOrder ι] :
    ∀ (l acc : List (Entry ι)), acc.Pairwise rankedBefore →
      (∀ y ∈ acc, ∀ x ∈ l, y.item_id ≤ x.item_id) →
      l.Pairwise (fun u v => u.item_id ≤ v.item_id) →
      (l.foldl (fun acc e => insertDescByScore e acc) acc).Pairwise rankedBefore := by
  intro l
  induction l with
  | nil =>
    intro acc hacc _ _
    exact hacc
  | cons e l' ih =>
    intro acc hacc hcross hl
    rcases List.pairwise_cons.mp hl with ⟨he, hl'⟩
    simp only [List.foldl_cons]
    apply ih
    · exact pairwise_insertDescByScore e acc hacc
        (fun y hy => hcross y hy e (List.mem_cons_self e l'))
    · intro y hy x hx
      rcases (mem_insertDescByScore e y acc).mp hy with rfl | hy'
      · exact he x hx
      · exact hcross y hy' x (List.mem_cons_of_mem e hx)
    · exact hl'

theorem entries_pairwise {ι : Type} [LinearOrder ι] (table : List (ItemRow ι)) :
    (sortByUrgency ((sortById table).filterMap analyzeItem)).Pairwise rankedBefore := by
  apply pairwise_sortByUrgency_aux _ [] (by simp) (by simp)
  apply pairwise_filterMap_of analyzeItem ?_ (pairwise_sortById table)
  intro a b x y hP hga hgb
  rw [analyzeItem_id hga, analyzeItem_id hgb]
  exact hP

theorem analyzeItem_eq_mkEntry {ι : Type} {r : ItemRow ι} {e : Entry ι}
    (h : analyzeItem r = some e) : ∃ ins, e = mkEntry r.item_id ins := by
  unfold analyzeItem at h
  cases hf : r.forecast with
  | none =>
    rw [hf] at h
    exact Option.noConfusion h
  | some f =>
    rw [hf] at h
    have h' : (match generate_inventory_insights r.inv r.details f with
        | InsightResult.ok ins => some (mkEntry r.item_id ins)
        | InsightResult.err _ => none) = some e := h
    cases hins : generate_inventory_insights r.inv r.details f with
    | ok ins =>
      rw [hins] at h'
      injection h' with h'
      exact ⟨ins, h'.symm⟩
    | err x =>
      rw [hins] at h'
      exact Option.noConfusion h'

theorem mkEntry_score_formula {ι : Type} (id : ι) (ins : Insight) :
    (mkEntry id ins).urgency_score =
      (if (mkEntry id ins).coverage_status = CovStatus.critical then 100 else 0)
      + (if (mkEntry id ins).coverage_status = CovStatus.low then 50 else 0)
      + (if (mkEntry id ins).below_rop = true then 75 else 0)
      + (if (mkEntry id ins).profit_margin < 10 then (-20 : Int) else 0) := by
  show urgencyScore ins.current_inventory ins.coverage ins.reorder ins.financial = _
  unfold urgencyScore
  have hcs : (mkEntry id ins).coverage_status = ins.coverage.status := rfl
  have hbr : (mkEntry id ins).below_rop =
      decide (ins.current_inventory ≤ ins.reorder.reorder_point) := rfl
  have hpm : (mkEntry id ins).profit_margin = ins.financial.profit_margin := rfl
  rw [hcs, hbr, hpm]
  cases ins.coverage.status <;>
    by_cases hrop : ins.current_inventory ≤ ins.reorder.reorder_point <;>
    by_cases hm : ins.financial.profit_margin < 10 <;>
    simp [hrop, hm]

theorem entry_score_formula {ι : Type} {r : ItemRow ι} {e : Entry ι}
    (h : analyzeItem r = some e) :
    e.urgency_score =
      (if e.coverage_status = CovStatus.critical then 100 else 0)
      + (if e.coverage_status = CovStatus.low then 50 else 0)
      + (if e.below_rop = true then 75 else 0)
      + (if e.profit_margin < 10 then (-20 : Int) else 0) := by
  obtain ⟨ins, rfl⟩ := analyzeItem_eq_mkEntry h
  exact mkEntry_score_formula r.item_id ins

theorem length_insertAscById {ι : Type} [LinearOrder ι] (r : ItemRow ι)
    (l : List (ItemRow ι)) : (insertAscById r l).length = l.length + 1 := by
  induction l with
  | nil => rfl
  | cons y ys ih =>
    simp only [insertAscById]
    split_ifs <;> simp [ih]

theorem length_sortById_aux {ι : Type} [LinearOrder ι] (l acc : List (ItemRow ι)) :
    (l.foldl (fun acc r => insertAscById r acc) acc).length = acc.length + l.length := by
  induction l generalizing acc with
  | nil => simp
  | cons r l' ih =>
    simp only [List.foldl_cons]
    rw [ih, length_insertAscById]
    simp only [List.length_cons]
    omega

theorem length_sortById {ι : Type} [LinearOrder ι] (l : List (ItemRow ι)) :
    (sortById l).length = l.length := by
  unfold sortById
  rw [length_sortById_aux]
  simp

theorem length_insertDescByScore {ι : Type} (e : Entry ι) (l : List (Entry ι)) :
    (insertDescByScore e l).length = l.length + 1 := by
  induction l with
  | nil => rfl
  | cons y ys ih =>
    simp only [insertDescByScore]
    split_ifs <;> simp [ih]

theorem length_sortByUrgency_aux {ι : Type} (l acc : List (Entry ι)) :
    (l.foldl (fun acc e => insertDescByScore e acc) acc).length =
      acc.length + l.length := by
  induction l generalizing acc with
  | nil => simp
  | cons e l' ih =>
    simp only [List.foldl_cons]
    rw [ih, length_insertDescByScore]
    simp only [List.length_cons]
    omega

theorem length_sortByUrgency {ι : Type} (l : List (Entry ι)) :
    (sortByUrgency l).length = l.length := by
  unfold sortByUrgency
  rw [length_sortByUrgency_aux]
  simp

theorem skipOf_complement {ι : Type} (r : ItemRow ι) :
    analyzeItem r = none ↔ ∃ s, skipOf r = some s := by
  cases hf : r.forecast with
  | none =>
    have h1 : analyzeItem r = none := by
      unfold analyzeItem
      rw [hf]
    have h2 : skipOf r = some (r.item_id, SkipKind.exceptionRaised) := by
      unfold skipOf
      rw [hf]
    rw [h1, h2]
    simp
  | some f =>
    have h1 : analyzeItem r = (match generate_inventory_insights r.inv r.details f with
        | InsightResult.ok ins => some (mkEntry r.item_id ins)
        | InsightResult.err _ => none) := by
      unfold analyzeItem
      rw [hf]
    have h2 : skipOf r = (match generate_inventory_insights r.inv r.details f with
        | InsightResult.ok _ => none
        | InsightResult.err _ => some (r.item_id, SkipKind.analysisFailed)) := by
      unfold skipOf
      rw [hf]
    rw [h1, h2]
    cases generate_inventory_insights r.inv r.details f <;> simp

theorem skipOf_fst {ι : Type} {r : ItemRow ι} {s : ι × SkipKind}
    (h : skipOf r = some s) : s.1 = r.item_id := by
  unfold skipOf at h
  cases hf : r.forecast with
  | none =>
    rw [hf] at h
    injection h with h
    rw [← h]
  | some f =>
    rw [hf] at h
    have h' : (match generate_inventory_insights r.inv r.details f with
        | InsightResult.ok _ => none
        | InsightResult.err _ => some (r.item_id, SkipKind.analysisFailed)) = some s := h
    cases hins : generate_inventory_insights r.inv r.details f with
    | ok ins =>
      rw [hins] at h'
      exact Option.noConfusion h'
    | err x =>
      rw [hins] at h'
      injection h' with h'
      rw [← h']

theorem length_filterMap_both {α β γ : Type} (g : α → Option β) (gs : α → Option γ)
    (hc : ∀ a, g a = none ↔ ∃ c, gs a = some c) :
    ∀ l : List α, (l.filterMap g).length + (l.filterMap gs).length = l.length := by
  intro l
  induction l with
  | nil => rfl
  | cons a l' ih =>
    cases hga : g a with
    | none =>
      obtain ⟨c, hc'⟩ := (hc a).mp hga
      rw [List.filterMap_cons_none hga, List.filterMap_cons_some hc']
      simp only [List.length_cons]
      omega
    | some b =>
      have hgs : gs a = none := by
        cases hgsa : gs a with
        | none => rfl
        | some c =>
          have hcontra : g a = none := (hc a).mpr ⟨c, hgsa⟩
          rw [hga] at hcontra
          exact Option.noConfusion hcontra
      rw [List.filterMap_cons_some hga, List.filterMap_cons_none hgs]
      simp only [List.length_cons]
      omega

/-- C7: every ranked entry carries the additive urgency score — 100 for
critical coverage, 50 for low (mutually exclusive), 75 when stock is at or
below the reorder point, minus 20 when the margin is below 10 — the entries
are ordered by descending urgency score with ties broken by ascending
item_id, and the buckets select scores of at least 75, between 25 and 74, and
below 25. -/
theorem C7_ranker_scoring {ι : Type} [LinearOrder ι] (table : List (ItemRow ι)) :
    (∀ e ∈ (find_items_to_reorder table).entries,
       e.urgency_score =
         (if e.coverage_status = CovStatus.critical then 100 else 0)
         + (if e.coverage_status = CovStatus.low then 50 else 0)
         + (if e.below_rop = true then 75 else 0)
         + (if e.profit_margin < 10 then (-20 : Int) else 0)) ∧
    (find_items_to_reorder table).entries.Pairwise rankedBefore ∧
    (∀ e ∈ (find_items_to_reorder table).entries,
       (e ∈ bucketHigh (find_items_to_reorder table).entries ↔
          75 ≤ e.urgency_score) ∧
       (e ∈ bucketMedium (find_items_to_reorder table).entries ↔
          25 ≤ e.urgency_score ∧ e.urgency_score < 75) ∧
       (e ∈ bucketLow (find_items_to_reorder table).entries ↔
          e.urgency_score < 25)) := by
  have hent : (find_items_to_reorder table).entries = [] ∨
      (find_items_to_reorder table).entries =
        sortByUrgency ((sortById table).filterMap analyzeItem) := by
    simp only [find_items_to_reorder]
    split_ifs <;> simp
  refine ⟨?_, ?_, ?_⟩
  · intro e he
    rcases hent with h | h
    · rw [h] at he
      simp at he
    · rw [h] at he
      obtain ⟨r, hr, hre⟩ := List.mem_filterMap.mp ((mem_sortByUrgency _ e).mp he)
      exact entry_score_formula hre
  · rcases hent with h | h
    · rw [h]
      simp
    · rw [h]
      exact entries_pairwise table
  · intro e he
    refine ⟨?_, ?_, ?_⟩ <;>
      simp [bucketHigh, bucketMedium, bucketLow, List.mem_filter, he,
        decide_eq_true_eq]

/-- C7 witness: over the five-item example the ranked entries are pairwise
ordered, the entry of item 0 satisfies the additive score formula, and it sits
in the low bucket exactly because its score is below 25. -/
theorem C7_witness :
    (find_items_to_reorder exampleTable).entries.Pairwise rankedBefore ∧
    exEntry.urgency_score =
      (if exEntry.coverage_status = CovStatus.critical then 100 else 0)
      + (if exEntry.coverage_status = CovStatus.low then 50 else 0)
      + (if exEntry.below_rop = true then 75 else 0)
      + (if exEntry.profit_margin < 10 then (-20 : Int) else 0) ∧
    (exEntry ∈ bucketLow (find_items_to_reorder exampleTable).entries ↔
      exEntry.urgency_score < 25) := by
  have h := C7_ranker_scoring exampleTable
  have hmem : exEntry ∈ (find_items_to_reorder exampleTable).entries := by
    with_unfolding_all decide
  exact ⟨h.2.1, h.1 exEntry hmem, (h.2.2 exEntry hmem).2.2⟩

/-- C8 amended: a per-item failure does not abort the ranking — the entry and
skip counts always add up to the catalog size, every successfully analysed
item appears among the ranked entries, and every failed item is recorded in
the console skip log with its reason. -/
theorem C8_skip_and_continue {ι : Type} [LinearOrder ι] (table : List (ItemRow ι)) :
    (find_items_to_reorder table).entries.length
        + (find_items_to_reorder table).skipped.length = table.length ∧
    (∀ r ∈ table, ∀ e, analyzeItem r = some e →
       e ∈ (find_items_to_reorder table).entries) ∧
    (∀ r ∈ table, analyzeItem r = none →
       ∃ k, (r.item_id, k) ∈ (find_items_to_reorder table).skipped) := by
  have hskip : (find_items_to_reorder table).skipped =
      (sortById table).filterMap skipOf := by
    simp only [find_items_to_reorder]
    split_ifs <;> rfl
  have hpart := length_filterMap_both analyzeItem skipOf skipOf_complement
    (sortById table)
  have hlen_sort : (sortById table).length = table.length := length_sortById table
  rw [hlen_sort] at hpart
  have hent : ((find_items_to_reorder table).entries = [] ∧
        (sortById table).filterMap analyzeItem = []) ∨
      (find_items_to_reorder table).entries =
        sortByUrgency ((sortById table).filterMap analyzeItem) := by
    simp only [find_items_to_reorder]
    by_cases hc : ((sortById table).filterMap analyzeItem).isEmpty
    · rw [if_pos hc]
      exact Or.inl ⟨rfl, by simpa using hc⟩
    · rw [if_neg hc]
      exact Or.inr rfl
  refine ⟨?_, ?_, ?_⟩
  · rcases hent with ⟨h1, h2⟩ | h1
    · rw [h1, hskip]
      rw [h2] at hpart
      simp only [List.length_nil] at hpart ⊢
      omega
    · rw [h1, hskip, length_sortByUrgency]
      omega
  · intro r hr e he
    have hmem : e ∈ (sortById table).filterMap analyzeItem :=
      List.mem_filterMap.mpr ⟨r, (mem_sortById table r).mpr hr, he⟩
    rcases hent with ⟨h1, h2⟩ | h1
    · rw [h2] at hmem
      simp at hmem
    · rw [h1]
      exact (mem_sortByUrgency _ e).mpr hmem
  · intro r hr hnone
    obtain ⟨s, hs⟩ := (skipOf_complement r).mp hnone
    obtain ⟨s1, s2⟩ := s
    have hfst : s1 = r.item_id := skipOf_fst hs
    subst hfst
    refine ⟨s2, ?_⟩
    rw [hskip]
    exact List.mem_filterMap.mpr ⟨r, (mem_sortById table r).mpr hr, hs⟩

/-- C8 witness: on the five-item example, entry and skip counts add up to
five, and the item with the failing forecast appears in the skip log. -/
theorem C8_witness :
    (find_items_to_reorder exampleTable).entries.length
        + (find_items_to_reorder exampleTable).skipped.length
        = exampleTable.length ∧
    ∃ k, ((2 : Nat), k) ∈ (find_items_to_reorder exampleTable).skipped := by
  have h := C8_skip_and_continue exampleTable
  refine ⟨h.1, ?_⟩
  have hbad : badRow ∈ exampleTable := by
    with_unfolding_all decide
  have hnone : analyzeItem badRow = none := rfl
  exact h.2.2 badRow hbad hnone

/-- C8 counterexample: ranking the five example items (one with a failing
forecast) yields four ranked entries and a console log naming the skipped
item, yet the returned report contains no skip record at all — the claim that
the final report notes how many items were skipped and why fails here. -/
theorem C8_counterexample :
    (find_items_to_reorder exampleTable).entries.length = 4 ∧
    (find_items_to_reorder exampleTable).skipped =
      [((2 : Nat), SkipKind.exceptionRaised)] ∧
    ((find_items_to_reorder exampleTable).report.filter
        (fun line => isSkipNote line)) = [] := by
  refine ⟨?_, ?_, ?_⟩ <;> with_unfolding_all rfl
